import Mathlib

/-!
Verification development for the LearnFlow AI backend's resilient LLM-response
pipeline.  The Python sources (`app/utils/ai_helpers.py`,
`app/utils/huggingface_service.py`, `app/utils/pinecone_service.py`,
`app/services/ai_service.py`) are shallowly embedded below: pure helpers become
Lean functions over `String`/`List Char`, the Python `json.loads` routine is
modelled by a fuel-based recursive-descent routine over a `Json` value type,
and the external collaborators (LLM, HTTP embedding endpoint, vector index)
are modelled as explicit oracle arguments so that every code path is a total
function.
-/

/-- The character `"` (kept as a named constant). -/
def quoteC : Char := Char.ofNat 34

/-- The apostrophe character. -/
def aposC : Char := Char.ofNat 39

/-- The character `\x7b` (opening curly brace). -/
def lbrace : Char := Char.ofNat 123

/-- The character `\x7d` (closing curly brace). -/
def rbrace : Char := Char.ofNat 125

/-- The backslash character. -/
def bslash : Char := '\\'

/-- ASCII whitespace as recognised by Python's `str.strip` / `\s`
(space, tab, newline, carriage return, vertical tab, form feed).
Unicode whitespace beyond ASCII is outside the model's scope. -/
def isPyWs (c : Char) : Bool :=
  c = ' ' || c = '\t' || c = '\n' || c = '\r' || c = Char.ofNat 11 || c = Char.ofNat 12

/-- Whitespace recognised by Python's JSON scanner (` \t\n\r`). -/
def isJsonWs (c : Char) : Bool :=
  c = ' ' || c = '\t' || c = '\n' || c = '\r'

/-- Python `str.strip()` on a character list: drop leading and trailing
whitespace. -/
def pyStripL (l : List Char) : List Char :=
  ((l.dropWhile isPyWs).reverse.dropWhile isPyWs).reverse

/-- Python `str.strip()`. -/
def pyStrip (s : String) : String := String.mk (pyStripL s.data)

/-- Python `str.lower()` (ASCII case mapping; full Unicode case folding is
outside the model's scope — every input considered here is ASCII). -/
def pyLower (s : String) : String := String.mk (s.data.map Char.toLower)

/-- Python `str.split()` with no argument on a character list: split on
whitespace runs and drop empty fragments. -/
def pyWordsL (l : List Char) : List (List Char) :=
  (l.foldr (fun c acc =>
    if isPyWs c then [] :: acc
    else match acc with
      | [] => [[c]]
      | w :: rest => (c :: w) :: rest) []).filter (fun w => w ≠ [])

/-- Python `str.split()` with no argument. -/
def pySplitWs (s : String) : List String := (pyWordsL s.data).map String.mk

/-- Substring containment on character lists (Python's `needle in hay`). -/
def hasSubL (hay needle : List Char) : Bool :=
  match hay with
  | [] => needle.isEmpty
  | _ :: t => needle.isPrefixOf hay || hasSubL t needle

/-- Python's `needle in hay` on strings. -/
def strContains (hay needle : String) : Bool := hasSubL hay.data needle.data

/-- Python `any(k in hay for k in needles)`. -/
def containsAny (hay : String) (needles : List String) : Bool :=
  needles.any (fun n => strContains hay n)

/-- Index of the first occurrence of `c` (Python `str.find`, `None` for -1). -/
def findIdxC : List Char → Char → Option Nat
  | [], _ => none
  | x :: t, c => if x = c then some 0 else (findIdxC t c).map (· + 1)

/-- Index of the last occurrence of `c` (Python `str.rfind`, `None` for -1). -/
def rfindIdxC : List Char → Char → Option Nat
  | [], _ => none
  | x :: t, c =>
    match rfindIdxC t c with
    | some n => some (n + 1)
    | none => if x = c then some 0 else none

/-- Python slice `l[a:b]` on a character list. -/
def pySliceL (l : List Char) (a b : Nat) : List Char := (l.drop a).take (b - a)

/-- JSON values as produced by Python's `json.loads`: integer tokens become
Python `int` (`num`), tokens with a fraction or exponent become `float`
(`fnum`, modelled exactly as a rational, ignoring IEEE rounding).  Objects are
insertion-ordered association lists; duplicate keys (which Python's `dict`
would collapse) do not occur in any input considered here. -/
inductive Json where
  | null
  | bool (b : Bool)
  | num (n : Int)
  | fnum (q : ℚ)
  | str (s : String)
  | arr (elems : List Json)
  | obj (fields : List (String × Json))

/-- Drop JSON whitespace. -/
def dropJWs (l : List Char) : List Char := l.dropWhile isJsonWs

/-- Value of a hexadecimal digit. -/
def hexVal (c : Char) : Option Nat :=
  if c.isDigit then some (c.toNat - 48)
  else if 'a' ≤ c && c ≤ 'f' then some (c.toNat - 87)
  else if 'A' ≤ c && c ≤ 'F' then some (c.toNat - 55)
  else none

/-- Decimal digits to a natural number. -/
def digitsToNat (l : List Char) : Nat :=
  l.foldl (fun acc c => 10 * acc + (c.toNat - 48)) 0

/-- Body of a JSON string literal, after the opening quote.  Mirrors Python's
strict scanner: a raw control character (< 0x20) is an error, the eight
standard escapes and `\uXXXX` are decoded (surrogate-pair combination is not
modelled; no input considered here contains surrogates). -/
def parseStrBody : Nat → List Char → List Char → Option (String × List Char)
  | 0, _, _ => none
  | _, [], _ => none
  | fuel + 1, c :: t, acc =>
    if c = quoteC then some (String.mk acc.reverse, t)
    else if c = bslash then
      match t with
      | [] => none
      | e :: t2 =>
        if e = quoteC then parseStrBody fuel t2 (quoteC :: acc)
        else if e = bslash then parseStrBody fuel t2 (bslash :: acc)
        else if e = '/' then parseStrBody fuel t2 ('/' :: acc)
        else if e = 'b' then parseStrBody fuel t2 (Char.ofNat 8 :: acc)
        else if e = 'f' then parseStrBody fuel t2 (Char.ofNat 12 :: acc)
        else if e = 'n' then parseStrBody fuel t2 ('\n' :: acc)
        else if e = 'r' then parseStrBody fuel t2 ('\r' :: acc)
        else if e = 't' then parseStrBody fuel t2 ('\t' :: acc)
        else if e = 'u' then
          match t2 with
          | h1 :: h2 :: h3 :: h4 :: t3 =>
            match hexVal h1, hexVal h2, hexVal h3, hexVal h4 with
            | some a, some b, some cc, some d =>
              parseStrBody fuel t3 (Char.ofNat (((a * 16 + b) * 16 + cc) * 16 + d) :: acc)
            | _, _, _, _ => none
          | _ => none
        else none
    else if c.toNat < 32 then none
    else parseStrBody fuel t (c :: acc)

/-- A JSON number token, per Python's `NUMBER_RE`:
`-?(0|[1-9][0-9]*)(\.[0-9]+)?([eE][-+]?[0-9]+)?`.  A token without fraction
and exponent yields a Python `int`; otherwise a `float` (modelled as an exact
rational).  The nonstandard `NaN`/`Infinity` literals Python also accepts are
outside the model's scope. -/
def parseNumTok (cs : List Char) : Option (Json × List Char) :=
  let (neg, cs1) :=
    match cs with
    | c :: t => if c = '-' then (true, t) else (false, cs)
    | [] => (false, cs)
  match cs1 with
  | [] => none
  | c :: t =>
    if ¬ c.isDigit then none
    else
      let (ipart, r1) :=
        if c = '0' then ([c], t)
        else (c :: t.takeWhile Char.isDigit, t.dropWhile Char.isDigit)
      let (fpart, r2) :=
        match r1 with
        | '.' :: t2 =>
          let ds := t2.takeWhile Char.isDigit
          if ds = [] then ([], r1) else (ds, t2.dropWhile Char.isDigit)
        | _ => ([], r1)
      let (epart, r3) :=
        match r2 with
        | e :: t2 =>
          if e = 'e' || e = 'E' then
            let (esign, t3) :=
              match t2 with
              | s :: t4 => if s = '+' then (1, t4) else if s = '-' then (-1, t4) else (1, t2)
              | [] => (1, t2)
            let ds := t3.takeWhile Char.isDigit
            if ds = [] then (none, r2)
            else (some ((esign : Int) * digitsToNat ds), t3.dropWhile Char.isDigit)
          else (none, r2)
        | [] => (none, r2)
      -- bad fraction like "1." leaves r1 intact: Python then fails on the '.'
      if fpart.isEmpty && (match r1 with | '.' :: _ => true | _ => false) then
        let iv : Int := (if neg then -1 else 1) * (digitsToNat ipart : Int)
        some (Json.num iv, r1)
      else
        match fpart, epart with
        | [], none =>
          some (Json.num ((if neg then -1 else 1) * (digitsToNat ipart : Int)), r3)
        | _, _ =>
          let base : ℚ := (digitsToNat ipart : ℚ) +
            (digitsToNat fpart : ℚ) / ((10 : ℚ) ^ fpart.length)
          let e : Int := epart.getD 0
          let v : ℚ := (if neg then -1 else 1) * base * ((10 : ℚ) ^ (e : Int))
          some (Json.fnum v, r3)

mutual

/-- Recursive-descent scan of one JSON value (fuel-indexed; the fuel used at
the top level always suffices for any input that parses). -/
def parseVal : Nat → List Char → Option (Json × List Char)
  | 0, _ => none
  | _ + 1, [] => none
  | fuel + 1, c :: t =>
    if c = lbrace then
      match dropJWs t with
      | [] => none
      | c2 :: t2 =>
        if c2 = rbrace then some (Json.obj [], t2)
        else (parseMembers fuel (c2 :: t2)).map (fun p => (Json.obj p.1, p.2))
    else if c = '[' then
      match dropJWs t with
      | [] => none
      | c2 :: t2 =>
        if c2 = ']' then some (Json.arr [], t2)
        else (parseItems fuel (c2 :: t2)).map (fun p => (Json.arr p.1, p.2))
    else if c = quoteC then
      (parseStrBody (fuel + 1) t []).map (fun p => (Json.str p.1, p.2))
    else if c = 't' then
      if "rue".data.isPrefixOf t then some (Json.bool true, t.drop 3) else none
    else if c = 'f' then
      if "alse".data.isPrefixOf t then some (Json.bool false, t.drop 4) else none
    else if c = 'n' then
      if "ull".data.isPrefixOf t then some (Json.null, t.drop 3) else none
    else if c = '-' || c.isDigit then parseNumTok (c :: t)
    else none

/-- Members of a JSON object, positioned at the first key. -/
def parseMembers : Nat → List Char → Option (List (String × Json) × List Char)
  | 0, _ => none
  | _ + 1, [] => none
  | fuel + 1, c :: t =>
    if c = quoteC then
      match parseStrBody (fuel + 1) t [] with
      | none => none
      | some (k, r1) =>
        match dropJWs r1 with
        | ':' :: r3 =>
          match parseVal fuel (dropJWs r3) with
          | none => none
          | some (v, r4) =>
            match dropJWs r4 with
            | [] => none
            | c2 :: r6 =>
              if c2 = ',' then
                (parseMembers fuel (dropJWs r6)).map (fun p => ((k, v) :: p.1, p.2))
              else if c2 = rbrace then some ([(k, v)], r6)
              else none
        | _ => none
    else none

/-- Items of a JSON array, positioned at the first element. -/
def parseItems : Nat → List Char → Option (List Json × List Char)
  | 0, _ => none
  | _ + 1, [] => none
  | fuel + 1, cs =>
    match parseVal fuel cs with
    | none => none
    | some (v, r1) =>
      match dropJWs r1 with
      | [] => none
      | c2 :: r2 =>
        if c2 = ',' then
          (parseItems fuel (dropJWs r2)).map (fun p => (v :: p.1, p.2))
        else if c2 = ']' then some ([v], r2)
        else none

end

/-- Python `json.loads` on a character list: skip whitespace, scan one value,
require only whitespace afterwards ("Extra data" otherwise); `none` models a
raised `json.JSONDecodeError`. -/
def jsonLoadsL (cs : List Char) : Option Json :=
  match parseVal ((dropJWs cs).length + 1) (dropJWs cs) with
  | some (v, rest) => if dropJWs rest = [] then some v else none
  | none => none

/-- Python `json.loads` on a string. -/
def jsonLoads (s : String) : Option Json := jsonLoadsL s.data

/-- Word characters of the fence regex `^```[\w\-]*\n?` (ASCII `\w` plus `-`;
Unicode word characters are outside the model's scope). -/
def isWordDash (c : Char) : Bool := c.isAlphanum || c = '_' || c = '-'

/-- Model of `re.sub(r'^```[\w\-]*\n?', '', text)`: an opening code fence at the very
start, its language tag and one following newline are removed. -/
def stripStartFence (l : List Char) : List Char :=
  if "```".data.isPrefixOf l then
    let rest := (l.drop 3).dropWhile isWordDash
    match rest with
    | '\n' :: r => r
    | _ => rest
  else l

/-- Does `l` end with `suf`? -/
def endsWithL (l suf : List Char) : Bool := suf.reverse.isPrefixOf l.reverse

/-- Model of `re.sub(r'\n?```$', '', text)`: a closing fence at the end of the text is
removed together with one preceding newline.  Python's `$` also matches just
before a final newline, so a trailing `` ```\n `` loses the backticks while
keeping the final newline. -/
def stripEndFence (l : List Char) : List Char :=
  if endsWithL l "```".data then
    let body := l.take (l.length - 3)
    if endsWithL body ['\n'] then body.take (body.length - 1) else body
  else if endsWithL l "```\n".data then
    let body := l.take (l.length - 4)
    let body2 := if endsWithL body ['\n'] then body.take (body.length - 1) else body
    body2 ++ ['\n']
  else l

/-- The preprocessing phase of `extract_json_from_text`
(`app/utils/ai_helpers.py:380-388`): strip, remove outer code fences, strip,
and drop a leading (case-insensitive) `json` token. -/
def preprocL (l : List Char) : List Char :=
  let t4 := pyStripL (stripEndFence (stripStartFence (pyStripL l)))
  if "json".data.isPrefixOf (t4.map Char.toLower) then pyStripL (t4.drop 4)
  else t4

/-- Locate the first `\x7b` and last `\x7d` (`ai_helpers.py:391-392`). -/
def braceBounds (l : List Char) : Option (Nat × Nat) :=
  match findIdxC l lbrace, rfindIdxC l rbrace with
  | some s, some e => some (s, e)
  | _, _ => none

/-- The replacement function of the quote-rewriting repair pass
(`ai_helpers.py:408-415`): apostrophes inside a quoted run become `\'`
(which is not a valid JSON escape — exactly as in the source). -/
def escApos (content : List Char) : List Char :=
  content.flatMap (fun c => if c = aposC then [bslash, aposC] else [c])

/-- Split at the next `"`: returns the content before it and the remainder
after it. -/
def splitAtQuote : List Char → Option (List Char × List Char)
  | [] => none
  | c :: t =>
    if c = quoteC then some ([], t)
    else (splitAtQuote t).map (fun p => (c :: p.1, p.2))

/-- Model of `re.sub(r'"([^"]*)"', escape_apostrophes, json_str)` scanning left to
right; an unpaired final quote matches nothing and is kept verbatim. -/
def quoteRepairAux : Nat → List Char → List Char
  | 0, cs => cs
  | fuel + 1, cs =>
    match cs with
    | [] => []
    | c :: t =>
      if c = quoteC then
        match splitAtQuote t with
        | some (content, rest) =>
          quoteC :: (escApos content ++ quoteC :: quoteRepairAux fuel rest)
        | none => c :: t
      else c :: quoteRepairAux fuel t

/-- The quote-rewriting repair pass. -/
def quoteRepair (cs : List Char) : List Char := quoteRepairAux cs.length cs

/-- Model of `json_str.replace('\n', '\\n').replace('\r', '\\r')`. -/
def escapeNewlines (cs : List Char) : List Char :=
  cs.flatMap (fun c =>
    if c = '\n' then [bslash, 'n']
    else if c = '\r' then [bslash, 'r']
    else [c])

/-- One pass of `re.sub(r',\s*X', 'X', s)` for a closing bracket `X`
(`ai_helpers.py:421-422`): a comma followed by whitespace and `X` collapses
to `X`. -/
def dropTrailingCommaAux (close : Char) : Nat → List Char → List Char
  | 0, cs => cs
  | fuel + 1, cs =>
    match cs with
    | [] => []
    | c :: t =>
      if c = ',' then
        match t.dropWhile isPyWs with
        | c2 :: r2 =>
          if c2 = close then close :: dropTrailingCommaAux close fuel r2
          else c :: dropTrailingCommaAux close fuel t
        | [] => c :: dropTrailingCommaAux close fuel t
      else c :: dropTrailingCommaAux close fuel t

/-- Remove trailing commas before `close`. -/
def dropTrailingComma (close : Char) (cs : List Char) : List Char :=
  dropTrailingCommaAux close cs.length cs

/-- The full repair ladder applied when the direct parse fails
(`ai_helpers.py:406-422`): rewrite quoted runs (escaping apostrophes), escape
literal newlines, then remove trailing commas before `\x7d` and `]`. -/
def repairJson (cs : List Char) : List Char :=
  dropTrailingComma ']' (dropTrailingComma rbrace (escapeNewlines (quoteRepair cs)))

/-- The minimal salvage mapping (`ai_helpers.py:429-435`): first 500
characters of the located brace-delimited slice plus `"..."`, with empty
`key_points`/`steps`/`examples`/`code_blocks` lists. -/
def salvageOf (raw : List Char) : Json :=
  Json.obj [
    ("answer", Json.str (String.mk (raw.take 500) ++ "...")),
    ("key_points", Json.arr []),
    ("steps", Json.arr []),
    ("examples", Json.arr []),
    ("code_blocks", Json.arr [])]

/-- Model of `extract_json_from_text` (`app/utils/ai_helpers.py:373-435`) on a
character list.  `none` models Python's `None`. -/
def extractL (l : List Char) : Option Json :=
  if l = [] then none
  else
    let t := preprocL l
    match braceBounds t with
    | none => none
    | some (s, e) =>
      let raw := pySliceL t s (e + 1)
      let js := pyStripL raw
      match jsonLoadsL js with
      | some v => some v
      | none =>
        match jsonLoadsL (repairJson js) with
        | some v => some v
        | none => some (salvageOf raw)

/-- Model of `extract_json_from_text` on a string. -/
def extract_json_from_text (text : String) : Option Json := extractL text.data

/-- Python truthiness of a parsed JSON value. -/
def pyTruthy : Json → Bool
  | .null => false
  | .bool b => b
  | .num n => n != 0
  | .fnum q => q != 0
  | .str s => s != ""
  | .arr l => !l.isEmpty
  | .obj l => !l.isEmpty

/-- Is the value a Python `dict`? -/
def isDictB : Json → Bool
  | .obj _ => true
  | _ => false

/-- Association-list lookup on object fields (Python `dict` access; keys are
unique in every input considered here). -/
def jlookup : List (String × Json) → String → Option Json
  | [], _ => none
  | (k, v) :: t, key => if k = key then some v else jlookup t key

/-- Python `value["k"]` on an object, `none` elsewhere. -/
def jget : Json → String → Option Json
  | .obj fs, k => jlookup fs k
  | _, _ => none

/-- Python `d.get(k, default)`. -/
def jgetD (fs : List (String × Json)) (k : String) (d : Json) : Json :=
  (jlookup fs k).getD d

/-- One turn of the validation loop of `AIService.generate_flashcards`
(`app/services/ai_service.py:274-282`): a `dict` card is normalised to the
four fixed keys with defaults; a non-`dict` element is skipped. -/
def validateCard : Json → Option Json
  | .obj fs => some (Json.obj [
      ("question", jgetD fs "question" (Json.str "No question provided")),
      ("answer", jgetD fs "answer" (Json.str "No answer provided")),
      ("category", jgetD fs "category" (Json.str "General")),
      ("difficulty", jgetD fs "difficulty" (Json.str "medium"))])
  | _ => none

/-- Model of `for card in flashcards: ...` over the extracted `flashcards` value.
Iterating a JSON array filters it through `validateCard`; iterating a string
or dict yields characters/keys (never dicts, so everything is skipped);
iterating a number, boolean or `None` raises `TypeError`, modelled as `none`
and routed to the `except`-branch fallback by the caller. -/
def iterValidateCards : Json → Option (List Json)
  | .arr l => some (l.filterMap validateCard)
  | .str _ => some []
  | .obj _ => some []
  | _ => none

/-- The apostrophe as a one-character string. -/
def aposS : String := String.singleton aposC

/-- Model of `AIService.create_fallback_flashcards` (`app/services/ai_service.py:309-349`):
deterministic topic-parameterized flashcards, with a dedicated set when the
lowercased topic contains `python`. -/
def create_fallback_flashcards (topic : String) : List Json :=
  if strContains (pyLower topic) "python" then [
    Json.obj [
      ("question", Json.str "What is the difference between a list and a tuple in Python?"),
      ("answer", Json.str "Lists are mutable (can be modified) while tuples are immutable (cannot be modified). Lists use square brackets [] and tuples use parentheses ()."),
      ("category", Json.str "Data Structures"),
      ("difficulty", Json.str "easy")],
    Json.obj [
      ("question", Json.str "How do you define a function in Python?"),
      ("answer", Json.str ("Using the " ++ aposS ++ "def" ++ aposS ++ " keyword followed by the function name and parentheses containing parameters. Example: def my_function(param1, param2):")),
      ("category", Json.str "Functions"),
      ("difficulty", Json.str "easy")],
    Json.obj [
      ("question", Json.str "What are Python decorators and how are they used?"),
      ("answer", Json.str "Decorators are functions that modify the behavior of other functions. They are denoted by the @ symbol and are placed above function definitions."),
      ("category", Json.str "Advanced Concepts"),
      ("difficulty", Json.str "medium")]]
  else [
    Json.obj [
      ("question", Json.str ("What are the key concepts of " ++ topic ++ "?")),
      ("answer", Json.str ("This flashcard covers fundamental concepts in " ++ topic ++ ". Study the main principles and applications.")),
      ("category", Json.str "Fundamentals"),
      ("difficulty", Json.str "easy")],
    Json.obj [
      ("question", Json.str ("How is " ++ topic ++ " applied in real-world scenarios?")),
      ("answer", Json.str (topic ++ " has various practical applications across different industries and use cases.")),
      ("category", Json.str "Applications"),
      ("difficulty", Json.str "medium")]]

/-- Model of `AIService.generate_flashcards` (`app/services/ai_service.py:252-306`),
with the LLM call abstracted to the raw text it returns (`llmRaw = none`
models a chain failure, i.e. `run_chain` returning `None`; `run_chain` strips
the raw text before extraction, `ai_helpers.py:492`).  The function always
answers `status: success`; the returned value is its `flashcards` field. -/
def generate_flashcards (llmRaw : Option String) (topic : String) : List Json :=
  let result : Option Json := llmRaw.bind (fun raw => extract_json_from_text (pyStrip raw))
  match result with
  | some r =>
    if pyTruthy r && isDictB r && (jget r "flashcards").isSome then
      match jget r "flashcards" with
      | some cards =>
        match iterValidateCards cards with
        | some validated => validated
        | none => create_fallback_flashcards topic
      | none => create_fallback_flashcards topic
    else create_fallback_flashcards topic
  | none => create_fallback_flashcards topic

/-- Model of `should_use_search` (`app/utils/ai_helpers.py:692-713`): three keyword
checks over the lowercased message; the `topic` parameter is accepted but
never read (the `search_triggers` list bound at the top of the source
function is likewise never read). -/
def should_use_search (message : String) (topic : String) : Bool :=
  let ml := pyLower message
  if containsAny ml ["current", "recent", "latest", "2024", "2025"] then true
  else if containsAny ml ["tutorial", "how to", "guide", "learn"] then true
  else if containsAny ml ["tools", "libraries", "frameworks", "resources"] then true
  else false

/-- The web-search query built by `AIService.handle_search_enhanced_chat`
(`app/services/ai_service.py:482-487`). -/
def search_enhanced_query (topic message : String) : String :=
  let ml := pyLower message
  if strContains ml "trend" || strContains ml "current" then
    topic ++ " current trends developments 2024"
  else if strContains ml "tool" then
    topic ++ " tools libraries frameworks 2024"
  else
    topic ++ " " ++ message ++ " tutorial guide examples 2024"

/-- The raw LLM output of the C1 scenario. -/
def c1LlmOutput : String := "Sure! ```json\n\x7b\"flashcards\": []\x7d\n```"

/-- The message of the C7 scenario. -/
def c7Message : String := "what are the latest javascript frameworks 2024"

/-- Model of `AIService.analyze_conversation_complexity`
(`app/services/ai_service.py:668-693`): word-count and phrase signals capped
at 5.  Each complexity indicator found in the lowercased user message adds 2
(the indicators are checked against the user message only). -/
def analyze_conversation_complexity (user_message ai_response : String) : Nat :=
  let user_words := (pyWordsL user_message.data).length
  let ai_words := (pyWordsL ai_response.data).length
  let s1 := if user_words > 20 then 2 else 0
  let s2 := if ai_words > 100 then 3 else 0
  let ml := pyLower user_message
  let indicators := ["how does", "why does", "explain", "compare",
    "difference between", "implement", "optimize", "architecture",
    "best practice", "advanced"]
  let s3 := 2 * (indicators.countP (fun i => strContains ml i))
  let s4 := if strContains ai_response "```" then 3 else 0
  min (s1 + s2 + s3 + s4) 5

/-- The fixed technical-term vocabulary of `AIService.extract_key_concepts`
(`app/services/ai_service.py:704-708`). -/
def technical_terms : List String :=
  ["function", "variable", "class", "object", "method",
   "algorithm", "framework", "library", "api", "database",
   "syntax", "compiler", "debug", "deploy", "optimize"]

/-- Model of `AIService.extract_key_concepts` (`app/services/ai_service.py:695-715`):
the lowercased topic plus every word of length > 4 from the lowercased text
that is in the vocabulary, deduplicated and capped at 10.  Python collects
the concepts in a `set` and truncates `list(concepts)`; the model uses
insertion order with the topic first — faithful whenever fewer than 10
concepts arise (as in every input considered here), and the per-concept
update below is order-independent in any case. -/
def extract_key_concepts (text : String) (main_topic : String) : List String :=
  let base := [pyLower main_topic]
  let ws := (pyWordsL (pyLower text).data).map String.mk
  (ws.foldl (fun acc w =>
    if 4 < w.length ∧ w ∈ technical_terms ∧ w ∉ acc then acc ++ [w] else acc)
    base).take 10

/-- Per-user understanding map: insertion-ordered `concept ↦ level`
association list with unique keys (a Python `dict`). -/
abbrev UMap := List (String × Nat)

/-- Python `d.get(k, default)` on an understanding map. -/
def mapGetD : UMap → String → Nat → Nat
  | [], _, d => d
  | (k2, v) :: t, k, d => if k2 = k then v else mapGetD t k d

/-- Python `d[k] = v` on an understanding map: replace in place, else append. -/
def mapSet : UMap → String → Nat → UMap
  | [], k, v => [(k, v)]
  | (k2, v2) :: t, k, v =>
    if k2 = k then (k2, v) :: t else (k2, v2) :: mapSet t k v

/-- Python `k in d` on an understanding map. -/
def hasKeyU : UMap → String → Bool
  | [], _ => false
  | (k2, _) :: t, k => k2 = k || hasKeyU t k

/-- Model of `AIService.calculate_understanding_update`
(`app/services/ai_service.py:640-666`): copy the map, add
`min(complexity*2, 10)` to every extracted concept clamping at 100 (the
update loop, `ai_service.py:652-660`). -/
def understanding_loop (user_message ai_response : String)
    (current : UMap) (topic : String) : UMap :=
  (extract_key_concepts (user_message ++ " " ++ ai_response) topic).foldl
    (fun m concept =>
      mapSet m concept (min (mapGetD m concept 0 +
        min (analyze_conversation_complexity user_message ai_response * 2) 10) 100))
    current

/-- The final step of `calculate_understanding_update`: the raw
(non-lowercased) topic key is forced to 10 only if absent after the loop. -/
def calculate_understanding_update (user_message ai_response : String)
    (current : UMap) (topic : String) : UMap :=
  if hasKeyU (understanding_loop user_message ai_response current topic) topic then
    understanding_loop user_message ai_response current topic
  else
    understanding_loop user_message ai_response current topic ++ [(topic, 10)]

/-- Iteration: `n` repeated applications of the understanding update with the same
question, response and topic. -/
def updateIter (user_message ai_response topic : String) : Nat → UMap → UMap
  | 0, m => m
  | n + 1, m =>
    calculate_understanding_update user_message ai_response
      (updateIter user_message ai_response topic n m) topic

/-- Every mastery level in the map is at most 100. -/
def boundedU (m : UMap) : Bool := m.all (fun p => p.2 ≤ 100)

/-- The C8 scenario's question. -/
def c8Question : String := "explain how recursion works in depth with examples"

/-- The C8 scenario's response: exactly 100 words, no code fence, no
vocabulary term. -/
def c8Response : String := String.intercalate " " (List.replicate 100 "again")

/-- Outcome of the single HTTP POST issued by `HFLocalEmbeddings.embed`
(`app/utils/huggingface_service.py:64-69`), modelled as an oracle:
a timeout (`requests.exceptions.Timeout`), another request exception
(`requests.exceptions.RequestException`), any other exception, or a
response with a status code and a body.  `body = none` models a
`response.json()` call that raises (malformed body). -/
inductive HttpOutcome where
  | timeout
  | reqExn
  | otherExn
  | resp (status : Nat) (body : Option Json)

/-- Python `float(v)` on a JSON scalar: numbers and booleans convert;
numeric strings convert when they match the integer/decimal shapes modelled
by `parseNumTok` (other convertible string forms such as `inf`/`1e5` are
outside the model's scope); everything else raises (`none`). -/
def pyFloat : Json → Option ℚ
  | .num n => some (n : ℚ)
  | .fnum q => some q
  | .bool b => some (if b then 1 else 0)
  | .str s =>
    match parseNumTok s.data with
    | some (.num n, []) => some (n : ℚ)
    | some (.fnum q, []) => some q
    | _ => none
  | _ => none

/-- Model of `[float(v) for v in embedding]`: iterating a JSON array converts every
element; iterating a string converts every character; anything else raises
`TypeError` (`none`), caught by the enclosing `except`. -/
def pyIterFloats : Json → Option (List ℚ)
  | .arr l => l.mapM pyFloat
  | .str s => (s.data.map (fun c => Json.str (String.mk [c]))).mapM pyFloat
  | _ => none

/-- Python `x[0]` on the value selected from a dict: first array element,
first character of a string; anything else raises (`none`). -/
def pyIndex0 : Json → Option Json
  | .arr (x :: _) => some x
  | .str s =>
    match s.data with
    | c :: _ => some (Json.str (String.mk [c]))
    | [] => none
  | _ => none

/-- The response-shape dispatch of `HFLocalEmbeddings.embed`
(`huggingface_service.py:78-102`), returning the candidate embedding value:
a list whose head is a list selects that head; a list whose head is a number
(or bool — Python's `bool` is an `int`) selects the whole list; a dict is
probed for `embeddings`/`embedding`/`vectors`/`vector` with Python
truthiness; every unrecognized shape (or an indexing/`len` error on a truthy
unsized value) yields `none`, which the caller turns into `[]`. -/
def selectEmbedding (data : Json) : Option Json :=
  match data with
  | .arr [] => none
  | .arr (x :: xs) =>
    match x with
    | .arr _ => some x
    | .num _ => some (Json.arr (x :: xs))
    | .fnum _ => some (Json.arr (x :: xs))
    | .bool _ => some (Json.arr (x :: xs))
    | _ => none
  | .obj fs =>
    match jlookup fs "embeddings" with
    | some v =>
      if pyTruthy v then pyIndex0 v
      else selectEmbeddingTail1 fs
    | none => selectEmbeddingTail1 fs
  | _ => none
where
  selectEmbeddingTail1 (fs : List (String × Json)) : Option Json :=
    match jlookup fs "embedding" with
    | some v => if pyTruthy v then some v else selectEmbeddingTail2 fs
    | none => selectEmbeddingTail2 fs
  selectEmbeddingTail2 (fs : List (String × Json)) : Option Json :=
    match jlookup fs "vectors" with
    | some v =>
      if pyTruthy v then pyIndex0 v
      else selectEmbeddingTail3 fs
    | none => selectEmbeddingTail3 fs
  selectEmbeddingTail3 (fs : List (String × Json)) : Option Json :=
    match jlookup fs "vector" with
    | some v => if pyTruthy v then some v else none
    | none => none

/-- Model of `HFLocalEmbeddings.embed` (`app/utils/huggingface_service.py:51-127`),
with the network call abstracted by its outcome.  Every failure path —
invalid/empty text, timeout, request exception, other exception, non-200
status, malformed body, unrecognized shape, failed float conversion, empty
embedding — returns the empty vector; an embedding shorter than 10 entries
is still returned as-is. -/
def embed (text : String) (outcome : HttpOutcome) : List ℚ :=
  if text = "" then []
  else
    match outcome with
    | .timeout => []
    | .reqExn => []
    | .otherExn => []
    | .resp status body =>
      if status ≠ 200 then []
      else
        match body with
        | none => []
        | some data =>
          match selectEmbedding data with
          | none => []
          | some emb =>
            match pyIterFloats emb with
            | none => []
            | some fs => if fs = [] then [] else fs

/-- The outcome of `self.embeddings.embed(text)` as observed by
`PineconeService.create_embedding`: either the returned float list, or a
raised exception. -/
inductive EmbedOutcome where
  | ok (v : List ℚ)
  | exn

/-- The 384-dimensional zero vector (`[0.0] * 384`). -/
def zeroVec384 : List ℚ := List.replicate 384 0

/-- Model of `PineconeService.create_embedding` (`app/utils/pinecone_service.py:175-204`)
with the embedding client abstracted: `client = false` models
`self.embeddings` being `None`.  An unavailable client, empty result or
exception yields the zero vector; a wrong-dimension result is truncated or
zero-padded to exactly 384 entries (the final `[float(v) for v in vec]` is
the identity on a list of floats). -/
def create_embedding (client : Bool) (outcome : EmbedOutcome) : List ℚ :=
  if ¬ client then zeroVec384
  else
    match outcome with
    | .exn => zeroVec384
    | .ok v =>
      if v = [] then zeroVec384
      else if v.length ≠ 384 then
        (if 384 < v.length then v.take 384 else v ++ List.replicate (384 - v.length) 0)
      else v

/-- One retrieved chat entry as returned by
`PineconeService.search_similar_chats` / `get_user_chat_history`
(`app/utils/pinecone_service.py`): id, similarity score and stored metadata
fields (the open `metadata` sub-map is not modelled). -/
structure ChatEntry where
  id : String
  score : ℚ
  user_message : String
  ai_response : String
  topic : String
  timestamp : String
deriving DecidableEq

/-- The query classification of `create_memory_context`
(`app/utils/ai_helpers.py:1017-1049`): personal, code, concept, short and
very-short flags over the lowercased stripped query. -/
def queryFlags (query : String) : Bool × Bool × Bool × Bool × Bool :=
  let ql := pyStrip (pyLower query)
  let personal_keywords := ["my name", "who am i", "remember me", "i am ", "call me",
    "do you know", "can you recall", "have we talked", "previous conversation",
    "before", "earlier", "last time"]
  let code_keywords := ["code", "function", "class", "method", "import", "def ",
    "javascript", "python", "java", "c++", "html", "css",
    "example", "syntax", "error", "debug", "fix", "how to"]
  let concept_keywords := ["what is", "explain", "define", "meaning of", "understand",
    "concept", "theory", "principle", "basics", "fundamentals"]
  let short_queries := ["hi", "hello", "hey", "good morning", "good afternoon",
    "good evening", "what" ++ aposS ++ "s up", "how are you"]
  (containsAny ql personal_keywords,
   containsAny ql code_keywords,
   containsAny ql concept_keywords,
   short_queries.any (fun k => k = ql || strContains ql (k ++ " ")),
   (pyWordsL ql.data).length ≤ 2)

/-- The search parameters chosen by `create_memory_context`
(`ai_helpers.py:1056-1082`): `(search_topic, threshold, limit)`.  Thresholds
are modelled as exact rationals. -/
def memoryParams (query topic : String) : Option String × ℚ × Nat :=
  match queryFlags query with
  | (is_personal, is_code, is_concept, is_short, is_very_short) =>
    if is_personal then (none, (2 : ℚ)/5, 5)
    else if is_short || is_very_short then (none, (3 : ℚ)/10, 3)
    else if is_code then (some topic, (4 : ℚ)/5, 5)
    else if is_concept then (some topic, (7 : ℚ)/10, 5)
    else (some topic, (3 : ℚ)/4, 5)

/-- Strategy 1 of `create_memory_context` (`ai_helpers.py:1089-1101`): the
topic-filtered search, attempted only when the topic is truthy and the query
is neither personal nor short. -/
def strategy1 (search : Option String → ℚ → Nat → List ChatEntry)
    (search_topic : Option String) (is_personal is_short : Bool)
    (th : ℚ) (lim : Nat) : List ChatEntry :=
  match search_topic with
  | some t => if t ≠ "" ∧ ¬ (is_personal || is_short) then search (some t) th lim else []
  | none => []

/-- Strategies 2 and 3 of `create_memory_context` (`ai_helpers.py:1103-1145`):
if no results yet, retry without topic filter at
`max(0.2, threshold - 0.2)`; if still empty, convert the user's recent chat
history, assigning the synthetic score 0.5 to every entry. -/
def applyLadder (search : Option String → ℚ → Nat → List ChatEntry)
    (history : Nat → List ChatEntry) (s1 : List ChatEntry)
    (th : ℚ) (lim : Nat) : List ChatEntry :=
  let s2 := if s1 = [] then search none (max ((1 : ℚ)/5) (th - (1 : ℚ)/5)) lim else s1
  if s2 = [] then (history lim).map (fun c => { c with score := (1 : ℚ)/2 }) else s2

/-- Model of `create_memory_context` (`app/utils/ai_helpers.py:980-1211`) with the
Pinecone service abstracted by two oracles: `search topic threshold limit`
models `search_similar_chats` for the fixed user and query, and
`history limit` models `get_user_chat_history` with no topic filter.  The
returned value is the `similar_chats` list of the result dict (the
`context_text` and `search_debug` fields are derived presentation not
modelled here).  `available = false` models a missing or disabled service. -/
def create_memory_context (search : Option String → ℚ → Nat → List ChatEntry)
    (history : Nat → List ChatEntry) (available : Bool)
    (query topic : String) (use_memory : Bool) : List ChatEntry :=
  if ¬ use_memory then []
  else if ¬ available then []
  else
    match queryFlags query, memoryParams query topic with
    | (is_personal, _, _, is_short, _), (search_topic, th, lim) =>
      applyLadder search history
        (strategy1 search search_topic is_personal is_short th lim) th lim

/-- The delete request issued to the vector index by
`PineconeService.delete_user_chats`. -/
inductive DeleteReq where
  | byIds (ids : List String)
  | all
deriving DecidableEq

/-- Model of `PineconeService.delete_user_chats` (`app/utils/pinecone_service.py:401-420`):
returns whether the call reported success and which delete request (if any)
was issued to the index.  `available = false` models
`not self.available or not self.index`; `succeeds = false` models the delete
call raising (caught, returning `False`, after the request was issued). -/
def delete_user_chats (available : Bool) (vector_ids : Option (List String))
    (succeeds : Bool) : Bool × Option DeleteReq :=
  if ¬ available then (false, none)
  else
    match vector_ids with
    | some l => if ¬ l.isEmpty then (succeeds, some (DeleteReq.byIds l)) else (succeeds, some DeleteReq.all)
    | none => (succeeds, some DeleteReq.all)

/-- A sample stored turn used in the C6 witness. -/
def sampleChat : ChatEntry :=
  { id := "id1", score := 1, user_message := "q", ai_response := "a",
    topic := "math", timestamp := "ts" }

/-- C1 (counterexample): for topic `python` and the LLM output
`Sure! `‌``json ... {"flashcards": []} ... ``‌``, `generate_flashcards`
returns an EMPTY flashcards list, not the (non-empty) python fallback set:
the validation branch only tests that the `flashcards` key is present, never
that the list is non-empty. -/
theorem generate_flashcards_no_empty_detection_cex :
    generate_flashcards (some c1LlmOutput) "python" = [] ∧
    (create_fallback_flashcards "python").length = 3 :=
  ⟨rfl, rfl⟩

/-- C1 (amended): the extractor parses the fenced output to
`{"flashcards": []}`; `generate_flashcards` then takes the success branch
(the key is present; emptiness is not checked) and returns a success result
with an empty flashcards list.  The topic-parameterized fallback is produced
only when extraction fails outright (or the result is falsy, not a dict, or
lacks the key). -/
theorem generate_flashcards_empty_list_kept :
    extract_json_from_text (pyStrip c1LlmOutput) =
      some (Json.obj [("flashcards", Json.arr [])]) ∧
    generate_flashcards (some c1LlmOutput) "python" = [] ∧
    generate_flashcards (some "Sorry, I cannot help with that.") "python" =
      create_fallback_flashcards "python" :=
  ⟨rfl, rfl, rfl⟩

/-- C3: on input `{"a":1,}` the direct parse raises, the repair pass removes
the trailing comma before `\x7d`, and the extractor returns the cleanly
repaired mapping `{"a": 1}` — neither `None` nor the salvage mapping. -/
theorem extract_trailing_comma_repaired_c3 :
    jsonLoads "\x7b\"a\":1,\x7d" = none ∧
    jsonLoads (String.mk (repairJson "\x7b\"a\":1,\x7d".data)) =
      some (Json.obj [("a", Json.num 1)]) ∧
    extract_json_from_text "\x7b\"a\":1,\x7d" = some (Json.obj [("a", Json.num 1)]) :=
  ⟨rfl, rfl, rfl⟩

/-- C7 (counterexample): `should_use_search` does return `true` for the
message, but the search-enhanced chat does NOT build a query containing
`tools libraries frameworks`: that branch requires the substring `tool` in
the message, which `frameworks` does not provide. -/
theorem search_query_not_tools_branch_cex :
    should_use_search c7Message "javascript" = true ∧
    strContains (search_enhanced_query "javascript" c7Message)
      "tools libraries frameworks" = false := by
  constructor <;> decide

/-- C7 (amended): `should_use_search` returns `true` (the message contains
`latest`), and the search-enhanced chat invokes the web search with the
default-branch query `"{topic} {message} tutorial guide examples 2024"`,
which contains `tutorial guide examples`; the `tools libraries frameworks`
query is used only when the message contains the substring `tool`. -/
theorem search_query_default_branch_c7 :
    should_use_search c7Message "javascript" = true ∧
    search_enhanced_query "javascript" c7Message =
      "javascript what are the latest javascript frameworks 2024 tutorial guide examples 2024" ∧
    strContains (search_enhanced_query "javascript" c7Message)
      "tutorial guide examples" = true := by
  refine ⟨by decide, rfl, by decide⟩

/-- C9: `should_use_search` depends only on the message — the `topic`
argument is never read, so any two topics give the same answer on every
message. -/
theorem should_use_search_ignores_topic_c9 :
    ∀ (message t1 t2 : String),
      should_use_search message t1 = should_use_search message t2 :=
  fun _ _ _ => rfl

/-! ### Structural lemmas for the extractor (claim C2) -/


theorem dropWhile_append_last {p : Char → Bool} {c : Char} (h : p c = false) :
    ∀ m : List Char, ∃ m2, (m ++ [c]).dropWhile p = m2 ++ [c] := by
  intro m
  induction m with
  | nil => exact ⟨[], by simp [List.dropWhile, h]⟩
  | cons a t ih =>
    by_cases ha : p a
    · simpa [List.dropWhile_cons, ha] using ih
    · exact ⟨a :: t, by simp [List.dropWhile_cons, ha]⟩

theorem pyStripL_cons_of_not_ws {c : Char} (h : isPyWs c = false) (l : List Char) :
    ∃ t, pyStripL (c :: l) = c :: t := by
  obtain ⟨m2, hm⟩ := dropWhile_append_last (p := isPyWs) h l.reverse
  refine ⟨m2.reverse, ?_⟩
  unfold pyStripL
  simp only [List.dropWhile_cons, h, if_neg, Bool.false_eq_true, ite_false]
  rw [List.reverse_cons, hm]
  simp

theorem findIdxC_drop {c : Char} : ∀ {l : List Char} {n : Nat},
    findIdxC l c = some n → ∃ l2, l.drop n = c :: l2 := by
  intro l
  induction l with
  | nil => intro n h; simp [findIdxC] at h
  | cons x t ih =>
    intro n h
    unfold findIdxC at h
    by_cases hx : x = c
    · simp [hx] at h
      exact ⟨t, by simp [hx, ← h]⟩
    · simp [hx] at h
      obtain ⟨m, hm, hn⟩ := h
      obtain ⟨l2, hl2⟩ := ih hm
      exact ⟨l2, by simpa [← hn] using hl2⟩

theorem rfindIdxC_drop {c : Char} : ∀ {l : List Char} {n : Nat},
    rfindIdxC l c = some n → ∃ l2, l.drop n = c :: l2 := by
  intro l
  induction l with
  | nil => intro n h; simp [rfindIdxC] at h
  | cons x t ih =>
    intro n h
    unfold rfindIdxC at h
    cases h2 : rfindIdxC t c with
    | some m =>
      rw [h2] at h
      simp at h
      obtain ⟨l2, hl2⟩ := ih h2
      exact ⟨l2, by simpa [← h] using hl2⟩
    | none =>
      rw [h2] at h
      by_cases hx : x = c
      · simp [hx] at h
        exact ⟨t, by simp [hx, ← h]⟩
      · simp [hx] at h

theorem parseVal_lbrace_obj {fuel : Nat} {t : List Char} {v : Json} {rest : List Char}
    (h : parseVal fuel (lbrace :: t) = some (v, rest)) : ∃ ms, v = Json.obj ms := by
  cases fuel with
  | zero => simp [parseVal] at h
  | succ f =>
    unfold parseVal at h
    simp at h
    cases hd : dropJWs t with
    | nil => rw [hd] at h; simp at h
    | cons c2 t2 =>
      rw [hd] at h
      by_cases hc : c2 = rbrace
      · simp [hc] at h
        exact ⟨[], h.1.symm⟩
      · simp [hc] at h
        cases hm : parseMembers f (c2 :: t2) with
        | none => rw [hm] at h; simp at h
        | some p =>
          rw [hm] at h
          simp at h
          obtain ⟨a, _, hv⟩ := h
          exact ⟨a, hv.symm⟩

theorem jsonLoadsL_lbrace_obj {t : List Char} {v : Json}
    (h : jsonLoadsL (lbrace :: t) = some v) : ∃ ms, v = Json.obj ms := by
  have hnw : isJsonWs lbrace = false := by decide
  have hd : dropJWs (lbrace :: t) = lbrace :: t := by
    simp [dropJWs, List.dropWhile_cons, hnw]
  rw [jsonLoadsL, hd] at h
  cases hp : parseVal ((lbrace :: t).length + 1) (lbrace :: t) with
  | none => rw [hp] at h; simp at h
  | some pr =>
    rw [hp] at h
    by_cases hr : dropJWs pr.2 = []
    · have hpr : parseVal ((lbrace :: t).length + 1) (lbrace :: t) = some (pr.1, pr.2) := by
        rw [hp]
      obtain ⟨v2, rest2⟩ := pr
      simp [hr] at h
      exact h ▸ parseVal_lbrace_obj hpr
    · obtain ⟨v2, rest2⟩ := pr
      simp at hr
      simp [hr] at h

theorem jsonLoadsL_nil : jsonLoadsL [] = none := rfl

theorem quoteRepair_lbrace (l : List Char) :
    ∃ t, quoteRepair (lbrace :: l) = lbrace :: t := by
  have h : ¬ (lbrace = quoteC) := by decide
  exact ⟨quoteRepairAux l.length l, by simp [quoteRepair, quoteRepairAux, h]⟩

theorem escapeNewlines_lbrace (l : List Char) :
    escapeNewlines (lbrace :: l) = lbrace :: escapeNewlines l := by
  have h1 : ¬ (lbrace = '\n') := by decide
  have h2 : ¬ (lbrace = '\r') := by decide
  simp [escapeNewlines, h1, h2]

theorem dropTrailingComma_lbrace (close : Char) (l : List Char) :
    ∃ t, dropTrailingComma close (lbrace :: l) = lbrace :: t := by
  have h : ¬ (lbrace = ',') := by decide
  exact ⟨dropTrailingCommaAux close l.length l,
    by simp [dropTrailingComma, dropTrailingCommaAux, h]⟩

theorem repairJson_lbrace (l : List Char) :
    ∃ t, repairJson (lbrace :: l) = lbrace :: t := by
  obtain ⟨t1, h1⟩ := quoteRepair_lbrace l
  rw [repairJson, h1, escapeNewlines_lbrace]
  obtain ⟨t2, h2⟩ := dropTrailingComma_lbrace rbrace (escapeNewlines t1)
  rw [h2]
  exact dropTrailingComma_lbrace ']' t2

theorem repairJson_nil : repairJson [] = [] := rfl

theorem braceBounds_some {t : List Char} {s e : Nat} (h : braceBounds t = some (s, e)) :
    findIdxC t lbrace = some s ∧ rfindIdxC t rbrace = some e := by
  unfold braceBounds at h
  cases h1 : findIdxC t lbrace with
  | none => rw [h1] at h; simp at h
  | some s' =>
    cases h2 : rfindIdxC t rbrace with
    | none => rw [h1, h2] at h; simp at h
    | some e' =>
      rw [h1, h2] at h
      simp at h
      exact ⟨by rw [h.1], by rw [h.2]⟩

theorem slice_head {t : List Char} {s e : Nat} (hs : findIdxC t lbrace = some s)
    (hse : s ≤ e) : ∃ r, pySliceL t s (e + 1) = lbrace :: r := by
  obtain ⟨l2, hd⟩ := findIdxC_drop hs
  refine ⟨l2.take (e - s), ?_⟩
  rw [pySliceL, hd]
  have hh : e + 1 - s = (e - s) + 1 := by omega
  rw [hh, List.take_succ_cons]

theorem slice_nil {t : List Char} {s e : Nat} (hse : e < s) :
    pySliceL t s (e + 1) = [] := by
  rw [pySliceL]
  have hh : e + 1 - s = 0 := by omega
  rw [hh, List.take_zero]

/-- C2: the extractor is total (every branch returns a value) and returns
`None` exactly when the fence-stripped text lacks a `\x7b` or a `\x7d`; in
every other case it returns a mapping — either the direct/repaired parse of
the brace-delimited slice, or the minimal salvage mapping built from that
slice. -/
theorem extract_none_iff_no_braces_c2 : ∀ text : String,
    (extract_json_from_text text = none ↔ braceBounds (preprocL text.data) = none)
    ∧ (∀ v, extract_json_from_text text = some v → ∃ fields, v = Json.obj fields)
    ∧ (∀ v s e, extract_json_from_text text = some v →
        braceBounds (preprocL text.data) = some (s, e) →
        jsonLoadsL (pyStripL (pySliceL (preprocL text.data) s (e + 1))) = some v
        ∨ jsonLoadsL (repairJson (pyStripL (pySliceL (preprocL text.data) s (e + 1)))) = some v
        ∨ v = salvageOf (pySliceL (preprocL text.data) s (e + 1))) := by
  intro text
  by_cases hl : text.data = []
  · have he : extract_json_from_text text = none := by
      rw [extract_json_from_text, hl]; rfl
    have hb : braceBounds (preprocL text.data) = none := by rw [hl]; rfl
    simp [he, hb]
  · rw [extract_json_from_text, extractL, if_neg hl]
    cases hb : braceBounds (preprocL text.data) with
    | none => simp [hb]
    | some se =>
      obtain ⟨s, e⟩ := se
      simp only [hb]
      obtain ⟨hfs, hfe⟩ := braceBounds_some hb
      by_cases hse : s ≤ e
      · obtain ⟨r, hraw⟩ := slice_head hfs hse
        obtain ⟨j2, hjs⟩ := pyStripL_cons_of_not_ws (show isPyWs lbrace = false by decide) r
        rw [hraw, hjs]
        cases hj : jsonLoadsL (lbrace :: j2) with
        | some v0 =>
          simp only [hj]
          refine ⟨by simp, fun v hv => ?_, fun v s' e' hv hb' => ?_⟩
          · rw [Option.some_inj] at hv
            exact hv ▸ jsonLoadsL_lbrace_obj hj
          · obtain ⟨rfl, rfl⟩ : s' = s ∧ e' = e := by
              simp at hb'; exact ⟨hb'.1.symm, hb'.2.symm⟩
            rw [Option.some_inj] at hv
            left
            rw [hraw, hjs, hj, hv]
        | none =>
          simp only [hj]
          obtain ⟨j3, hrep⟩ := repairJson_lbrace j2
          cases hj2 : jsonLoadsL (repairJson (lbrace :: j2)) with
          | some v0 =>
            simp only [hj2]
            refine ⟨by simp, fun v hv => ?_, fun v s' e' hv hb' => ?_⟩
            · rw [Option.some_inj] at hv
              rw [hrep] at hj2
              exact hv ▸ jsonLoadsL_lbrace_obj hj2
            · obtain ⟨rfl, rfl⟩ : s' = s ∧ e' = e := by
                simp at hb'; exact ⟨hb'.1.symm, hb'.2.symm⟩
              rw [Option.some_inj] at hv
              right; left
              rw [hraw, hjs, hj2, hv]
          | none =>
            simp only [hj2]
            refine ⟨by simp, fun v hv => ?_, fun v s' e' hv hb' => ?_⟩
            · rw [Option.some_inj] at hv
              exact ⟨_, hv.symm⟩
            · obtain ⟨rfl, rfl⟩ : s' = s ∧ e' = e := by
                simp at hb'; exact ⟨hb'.1.symm, hb'.2.symm⟩
              rw [Option.some_inj] at hv
              right; right
              rw [hraw, ← hv]
      · have hraw : pySliceL (preprocL text.data) s (e + 1) = [] := slice_nil (by omega)
        rw [hraw]
        have h1 : jsonLoadsL (pyStripL ([] : List Char)) = none := rfl
        have h2 : jsonLoadsL (repairJson (pyStripL ([] : List Char))) = none := rfl
        simp only [h1, h2]
        refine ⟨by simp, fun v hv => ?_, fun v s' e' hv hb' => ?_⟩
        · rw [Option.some_inj] at hv
          exact ⟨_, hv.symm⟩
        · obtain ⟨rfl, rfl⟩ : s' = s ∧ e' = e := by
            simp at hb'; exact ⟨hb'.1.symm, hb'.2.symm⟩
          rw [Option.some_inj] at hv
          right; right
          rw [hraw, ← hv]

/-- Witness for C2: a prose-only text (no braces) maps to `None`, obtained
from the right-to-left direction of the iff discharged at a concrete
input. -/
theorem extract_none_iff_no_braces_c2_witness :
    extract_json_from_text "plain prose without delimiters" = none :=
  (extract_none_iff_no_braces_c2 "plain prose without delimiters").1.mpr (by decide)

/-! ### Lemmas for the understanding tracker (claim C8) -/

theorem boundedU_iff {m : UMap} : boundedU m = true ↔ ∀ p ∈ m, p.2 ≤ 100 := by
  simp [boundedU, List.all_eq_true]

theorem mapSet_bounded {m : UMap} {k : String} {v : Nat}
    (hm : ∀ p ∈ m, p.2 ≤ 100) (hv : v ≤ 100) :
    ∀ p ∈ mapSet m k v, p.2 ≤ 100 := by
  induction m with
  | nil =>
    intro p hp
    simp [mapSet] at hp
    simp [hp, hv]
  | cons hd t ih =>
    obtain ⟨k2, v2⟩ := hd
    intro p hp
    by_cases hk : k2 = k
    · simp only [mapSet, if_pos hk] at hp
      rcases List.mem_cons.mp hp with h | h
      · simp [h, hv]
      · exact hm p (List.mem_cons_of_mem _ h)
    · simp only [mapSet, if_neg hk] at hp
      rcases List.mem_cons.mp hp with h | h
      · exact h ▸ hm (k2, v2) (List.mem_cons_self _ _)
      · exact ih (fun p hp => hm p (List.mem_cons_of_mem _ hp)) p h

theorem foldl_mapSet_bounded (f : UMap → String → Nat) (concepts : List String) :
    ∀ m : UMap, (∀ p ∈ m, p.2 ≤ 100) →
      ∀ p ∈ concepts.foldl (fun m c => mapSet m c (min (f m c) 100)) m, p.2 ≤ 100 := by
  induction concepts with
  | nil => intro m hm; simpa using hm
  | cons c t ih =>
    intro m hm
    simp only [List.foldl_cons]
    exact ih _ (mapSet_bounded hm (Nat.min_le_right _ _))

theorem understanding_update_preserves_bound (q r t : String) {m : UMap}
    (hm : boundedU m = true) :
    boundedU (calculate_understanding_update q r m t) = true := by
  have hfold : ∀ p ∈ understanding_loop q r m t, p.2 ≤ 100 := by
    unfold understanding_loop
    exact foldl_mapSet_bounded
      (fun m c => mapGetD m c 0 + min (analyze_conversation_complexity q r * 2) 10)
      (extract_key_concepts (q ++ " " ++ r) t) m (boundedU_iff.mp hm)
  unfold calculate_understanding_update
  split
  · exact boundedU_iff.mpr hfold
  · refine boundedU_iff.mpr ?_
    intro p hp
    rcases List.mem_append.mp hp with h | h
    · exact hfold p h
    · simp at h
      simp [h]

set_option maxRecDepth 4000 in
/-- C8 (counterexample): for the question
`explain how recursion works in depth with examples`, a response of exactly
100 words (no code fence), the empty map and topic `recursion`, the update
yields `understanding["recursion"] = 4`, and `4 < 10`: the claimed lower bound of 10 fails: the
complexity score is 2 (only `explain` matches; 100 words is not `> 100`),
the increment is `min(2*2,10) = 4`, and the force-to-10 step does not apply
because the topic key is present after the loop. -/
theorem understanding_update_not_ten_cex :
    (pyWordsL c8Response.data).length = 100 ∧
    mapGetD (calculate_understanding_update c8Question c8Response [] "recursion")
      "recursion" 0 = 4 ∧
    4 < 10 :=
  ⟨rfl, rfl, by decide⟩

set_option maxRecDepth 4000 in
/-- C8 (amended): the concrete scenario yields
`understanding["recursion"] = 4` (hence `>= 4` and `<= 100`); and for every
current map whose values are at most 100, any number of repeated
applications of the update never produces a value above 100. -/
theorem understanding_update_bounded_c8 :
    (mapGetD (calculate_understanding_update c8Question c8Response [] "recursion")
       "recursion" 0 = 4 ∧ 4 ≤ 100) ∧
    ∀ (q r t : String) (m : UMap), boundedU m = true →
      ∀ n, boundedU (updateIter q r t n m) = true := by
  refine ⟨⟨rfl, by decide⟩, ?_⟩
  intro q r t m hm n
  induction n with
  | zero => exact hm
  | succ k ih => exact understanding_update_preserves_bound q r t ih

/-- Witness for C8 (amended): three iterated updates on a concrete bounded
map stay bounded. -/
theorem understanding_update_bounded_c8_witness :
    boundedU [("x", 50)] = true ∧
    boundedU (updateIter "a" "b" "c" 3 [("x", 50)]) = true :=
  ⟨by decide, understanding_update_bounded_c8.2 "a" "b" "c" [("x", 50)] (by decide) 3⟩

/-- C4: the embedding adapter returns a list of floats on every path and
never raises out of its boundary: a timeout, a request exception, any other
exception, a non-200 status, a malformed body (`response.json()` raising) or
an unrecognized response shape all yield the empty vector. -/
theorem embed_failure_empty_c4 :
    (∀ text, embed text .timeout = []) ∧
    (∀ text, embed text .reqExn = []) ∧
    (∀ text, embed text .otherExn = []) ∧
    (∀ text status body, status ≠ 200 → embed text (.resp status body) = []) ∧
    (∀ text status, embed text (.resp status none) = []) ∧
    (∀ text status d, selectEmbedding d = none →
      embed text (.resp status (some d)) = []) := by
  refine ⟨?_, ?_, ?_, ?_, ?_, ?_⟩
  · intro text; by_cases h : text = "" <;> simp [embed, h]
  · intro text; by_cases h : text = "" <;> simp [embed, h]
  · intro text; by_cases h : text = "" <;> simp [embed, h]
  · intro text status body h200
    by_cases h : text = "" <;> simp [embed, h, h200]
  · intro text status
    by_cases h : text = "" <;> by_cases h200 : status = 200 <;> simp [embed, h, h200]
  · intro text status d hsel
    by_cases h : text = "" <;> by_cases h200 : status = 200 <;> simp [embed, h, h200, hsel]

/-- Witness for C4: concrete failure outcomes produce the empty vector. -/
theorem embed_failure_empty_c4_witness :
    embed "hello world" HttpOutcome.timeout = [] ∧
    embed "hello world" (.resp 500 (some (Json.arr [Json.num 1]))) = [] ∧
    embed "hello world" (.resp 200 (some (Json.obj [("status", Json.str "ok")]))) = [] :=
  ⟨embed_failure_empty_c4.1 "hello world",
   embed_failure_empty_c4.2.2.2.1 "hello world" 500 (some (Json.arr [Json.num 1])) (by decide),
   embed_failure_empty_c4.2.2.2.2.2 "hello world" 200 (Json.obj [("status", Json.str "ok")]) rfl⟩

theorem zeroVec384_length : zeroVec384.length = 384 := by
  rw [zeroVec384, List.length_replicate]

/-- C5: `create_embedding` always returns exactly 384 floats: an unavailable
client, an empty or failed embedding, or an exception yields the
384-dimensional zero vector, and a wrong-dimension embedding is truncated or
zero-padded to exactly 384 entries. -/
theorem create_embedding_dim_c5 :
    (∀ c o, (create_embedding c o).length = 384) ∧
    (∀ o, create_embedding false o = zeroVec384) ∧
    (create_embedding true .exn = zeroVec384) ∧
    (create_embedding true (.ok []) = zeroVec384) ∧
    (∀ v, 384 < v.length → create_embedding true (.ok v) = v.take 384) ∧
    (∀ v, v ≠ [] → v.length < 384 →
      create_embedding true (.ok v) = v ++ List.replicate (384 - v.length) 0) ∧
    (∀ v : List ℚ, v ≠ [] → v.length = 384 → create_embedding true (.ok v) = v) := by
  refine ⟨?_, ?_, by simp [create_embedding], by simp [create_embedding], ?_, ?_, ?_⟩
  · intro c o
    cases c with
    | false => simp [create_embedding, zeroVec384_length]
    | true =>
      cases o with
      | exn => simp [create_embedding, zeroVec384_length]
      | ok v =>
        by_cases hv : v = []
        · simp [create_embedding, hv, zeroVec384_length]
        · by_cases hlen : v.length = 384
          · simp [create_embedding, hv, hlen]
          · by_cases hgt : 384 < v.length
            · simp [create_embedding, hv, hlen, hgt]
              omega
            · simp [create_embedding, hv, hlen, hgt]
              omega
  · intro o; simp [create_embedding]
  · intro v hgt
    have hv : v ≠ [] := by intro h; rw [h] at hgt; simp at hgt
    have hlen : v.length ≠ 384 := by omega
    simp [create_embedding, hv, hlen, hgt]
  · intro v hv hlt
    have hlen : v.length ≠ 384 := by omega
    have hgt : ¬ (384 < v.length) := by omega
    simp [create_embedding, hv, hlen, hgt]
  · intro v hv hlen
    simp [create_embedding, hv, hlen]

/-- Witness for C5: a 400-entry vector is truncated, a 2-entry vector is
zero-padded, and a 384-entry vector is returned unchanged. -/
theorem create_embedding_dim_c5_witness :
    create_embedding true (.ok (List.replicate 400 1)) = (List.replicate 400 (1 : ℚ)).take 384 ∧
    create_embedding true (.ok [2, 3]) = [2, 3] ++ List.replicate (384 - ([2, 3] : List ℚ).length) 0 ∧
    create_embedding true (.ok (List.replicate 384 5)) = List.replicate 384 (5 : ℚ) :=
  ⟨create_embedding_dim_c5.2.2.2.2.1 (List.replicate 400 1)
     (by rw [List.length_replicate]; decide),
   create_embedding_dim_c5.2.2.2.2.2.1 [2, 3] (by simp) (by decide),
   create_embedding_dim_c5.2.2.2.2.2.2 (List.replicate 384 5)
     (by
       intro h
       have h2 := congrArg List.length h
       rw [List.length_replicate] at h2
       simp at h2)
     (by rw [List.length_replicate])⟩

/-- C6: when the topic-filtered search returns no matches, the retry runs
without topic filter at threshold `max(0.2, threshold - 0.2)`; if that is
still empty the result is the user's recent history with synthetic score
0.5 per entry, which is non-empty whenever any history exists. -/
theorem memory_fallback_ladder_c6 :
    ∀ (search : Option String → ℚ → Nat → List ChatEntry)
      (history : Nat → List ChatEntry) (query topic t : String) (th : ℚ) (lim : Nat),
      memoryParams query topic = (some t, th, lim) → t ≠ "" →
      search (some t) th lim = [] →
      (create_memory_context search history true query topic true =
        (if search none (max ((1 : ℚ)/5) (th - (1 : ℚ)/5)) lim = []
         then (history lim).map (fun c => { c with score := (1 : ℚ)/2 })
         else search none (max ((1 : ℚ)/5) (th - (1 : ℚ)/5)) lim)) ∧
      (search none (max ((1 : ℚ)/5) (th - (1 : ℚ)/5)) lim = [] → history lim ≠ [] →
        create_memory_context search history true query topic true ≠ []) := by
  intro search history query topic t th lim hparam ht h1
  rcases hf : queryFlags query with ⟨p, c, co, sh, vs⟩
  have hparam2 := hparam
  rw [memoryParams, hf] at hparam2
  have hguards : p = false ∧ sh = false := by
    by_cases hp : p = true
    · simp [hp] at hparam2
    · by_cases hsh : sh = true
      · simp [hsh, hp] at hparam2
      · exact ⟨by simpa using hp, by simpa using hsh⟩
  obtain ⟨hp, hsh⟩ := hguards
  subst hp hsh
  have hmain : create_memory_context search history true query topic true =
      applyLadder search history [] th lim := by
    rw [create_memory_context]
    simp only [hf, hparam, Bool.not_true, ite_false, if_neg]
    rw [strategy1]
    simp [ht, h1]
  have hladder : applyLadder search history [] th lim =
      (if search none (max ((1 : ℚ)/5) (th - (1 : ℚ)/5)) lim = []
       then (history lim).map (fun c => { c with score := (1 : ℚ)/2 })
       else search none (max ((1 : ℚ)/5) (th - (1 : ℚ)/5)) lim) := by
    rw [applyLadder]
    simp only [if_pos rfl]
    by_cases h2 : search none (max ((1 : ℚ)/5) (th - (1 : ℚ)/5)) lim = []
    · simp [h2]
    · simp [h2]
  constructor
  · rw [hmain, hladder]
  · intro h2 hh
    rw [hmain, hladder, if_pos h2]
    simp [hh]

/-- Witness for C6: with a search oracle that always returns no matches and
one stored turn of history, the returned similar-chats list is exactly that
turn carrying the synthetic score 0.5. -/
theorem memory_fallback_ladder_c6_witness :
    create_memory_context (fun _ _ _ => []) (fun _ => [sampleChat]) true
      "alpha beta gamma" "math" true =
    [{ sampleChat with score := (1 : ℚ)/2 }] := by
  have h := (memory_fallback_ladder_c6 (fun _ _ _ => []) (fun _ => [sampleChat])
      "alpha beta gamma" "math" "math" ((3 : ℚ)/4) 5 rfl (by decide) rfl).1
  rw [h]
  rfl

/-- C10: `delete_user_chats` with an explicit empty id list behaves exactly
like omitting the id list: the empty list is falsy in Python, so the
`delete_all` request is issued for the user's namespace — not a no-op. -/
theorem delete_empty_ids_deletes_all_c10 :
    (∀ avail succ, delete_user_chats avail (some []) succ = delete_user_chats avail none succ) ∧
    (∀ succ, delete_user_chats true (some []) succ = (succ, some DeleteReq.all)) := by
  constructor
  · intro avail succ; cases avail <;> rfl
  · intro succ; rfl
